import Mathlib

/-!
Verification of the arithmetization core of the zkir-prover repository: a
shallow embedding, over the Baby Bear prime field, of the execution-trace data
model (`src/trace.rs`), the CPU chip trace generator
(`src/chips/cpu/trace.rs`), the memory chip trace generator and constraint
evaluator (`src/chips/memory/mod.rs`), and the Poseidon2 / SHA256 syscall chip
trace generators (`src/chips/syscall/`).

Machine integers (u8/u32/u64/i32) are modelled as `Nat`/`Int` with explicit
wraparound where the source performs wrapping arithmetic.  Field elements are
`ZMod 2013265921`; `F::from_canonical_u32/u64` is modelled as the natural-number
cast into the field.  Witness matrices (row-major `RowMajorMatrix<F>`) are
modelled as lists of typed rows, mirroring the column structs that the source
lays over each flat row slice.
-/

/-- The Baby Bear prime, `p = 2^31 - 2^27 + 1`, from `src/lib.rs`
(`BABY_BEAR_PRIME`). -/
def BABY_BEAR_PRIME : Nat := 2013265921

/-- The field type used throughout the prover (`type F = BabyBear` in
`src/lib.rs`). -/
abbrev F : Type := ZMod 2013265921

/-- Fast modular exponentiation with explicit fuel, structurally recursive so
that the kernel can evaluate it; used only to certify primality of the Baby
Bear modulus. -/
def powMod : Nat → Nat → Nat → Nat → Nat
  | 0, _, _, m => 1 % m
  | fuel + 1, a, e, m =>
    if e = 0 then 1 % m
    else
      let h := powMod fuel (a * a % m) (e / 2) m
      if e % 2 = 1 then a % m * h % m else h

/-- Rust's `usize::next_power_of_two` (the least power of two that is ≥ the
argument, with `next_power_of_two 0 = 1`), implemented by doubling from 1 with
explicit fuel so the kernel can evaluate it. -/
def nextPowerOfTwoAux (n : Nat) : Nat → Nat → Nat
  | power, 0 => power
  | power, fuel + 1 => if power < n then nextPowerOfTwoAux n (power * 2) fuel else power

/-- Rust's `n.next_power_of_two()`. -/
def nextPowerOfTwo (n : Nat) : Nat := nextPowerOfTwoAux n 1 n

/-- Reinterpretation of an `i32` as a `u32` (Rust's `imm as u32`,
two's-complement). -/
def u32_of_i32 (i : Int) : Nat := (i % 4294967296).toNat

/-- Number of registers in the ZK IR VM (`NUM_REGISTERS` in `src/lib.rs`). -/
def NUM_REGISTERS : Nat := 32

/-- A single step of execution (`Step` in `src/trace.rs`).  The register file
`[u32; 32]` is modelled as a total function from the register index; the source
indexes it with `rd`/`rs1`/`rs2`, whose validity (`< 32`) is the external
interpreter's contract. -/
structure Step where
  pc : Nat
  cycle : Nat
  opcode : Nat
  rd : Nat
  rs1 : Nat
  rs2 : Nat
  imm : Int
  funct : Nat
  registers : Nat → Nat

/-- A memory access record (`MemoryAccess` in `src/trace.rs`). -/
structure MemoryAccess where
  address : Nat
  cycle : Nat
  value : Nat
  is_write : Bool
deriving DecidableEq

/-- A syscall record (`SyscallRecord` in `src/trace.rs`). -/
structure SyscallRecord where
  code : Nat
  cycle : Nat
  inputs : List Nat
  outputs : List Nat

/-- Syscall code of `SyscallCode::Poseidon2` (`= 0x01`). -/
def syscall_code_poseidon2 : Nat := 1

/-- Syscall code of `SyscallCode::Sha256` (`= 0x03`). -/
def syscall_code_sha256 : Nat := 3

/-- Complete execution trace (`ExecutionTrace` in `src/trace.rs`).  The
32-byte program hash is modelled as a list of bytes. -/
structure ExecutionTrace where
  program_hash : List Nat
  inputs : List Nat
  outputs : List Nat
  steps : List Step
  memory_log : List MemoryAccess
  syscalls : List SyscallRecord

/-- Number of execution cycles (`ExecutionTrace::num_cycles`):
`self.steps.last().map(|s| s.cycle).unwrap_or(0)`. -/
def ExecutionTrace.num_cycles (t : ExecutionTrace) : Nat :=
  (t.steps.getLast?.map Step.cycle).getD 0

/-- The comparator used by `ExecutionTrace::sorted_memory_log`:
`a.address.cmp(&b.address).then(a.cycle.cmp(&b.cycle))` is non-`Greater`,
i.e. lexicographic (address, cycle) order. -/
def mem_le (a b : MemoryAccess) : Prop :=
  a.address < b.address ∨ (a.address = b.address ∧ a.cycle ≤ b.cycle)

instance mem_le_dec : DecidableRel mem_le := fun a b => by
  unfold mem_le; infer_instance

instance mem_le_total : IsTotal MemoryAccess mem_le :=
  ⟨by intro a b; unfold mem_le; omega⟩

instance mem_le_trans : IsTrans MemoryAccess mem_le :=
  ⟨by intro a b c hab hbc; unfold mem_le at hab hbc ⊢; omega⟩

/-- Memory accesses sorted by (address, cycle)
(`ExecutionTrace::sorted_memory_log`).  Rust's `sort_by` is a stable sort with
the lexicographic comparator; insertion sort with the same non-strict relation
is extensionally the same function. -/
def ExecutionTrace.sorted_memory_log (t : ExecutionTrace) : List MemoryAccess :=
  List.insertionSort mem_le t.memory_log

/-- CPU trace columns (`CpuColumns<T>` in `src/chips/cpu/columns.rs`, 32
columns), instantiated at the Baby Bear field. -/
structure CpuColumns where
  pc : F
  next_pc : F
  cycle : F
  is_halted : F
  opcode : F
  rd : F
  rs1 : F
  rs2 : F
  imm : F
  funct : F
  rs1_val : F
  rs2_val : F
  rd_val : F
  is_alu : F
  is_alu_imm : F
  is_branch : F
  is_jump : F
  is_load : F
  is_store : F
  is_lui_auipc : F
  is_system : F
  is_zk_custom : F
  is_zk_io : F
  is_halt : F
  is_nop : F
  alu_op : F
  alu_result : F
  branch_taken : F
  comparison_result : F
  mem_addr : F
  mem_val : F
  mem_is_write : F
deriving DecidableEq

/-- An all-zero CPU row: the source allocates the whole witness vector as
`vec![F::ZERO; ...]`, so every column a populate function does not write keeps
this value. -/
def cpuZeroRow : CpuColumns :=
  ⟨0, 0, 0, 0, 0, 0, 0, 0, 0, 0, 0, 0, 0, 0, 0, 0,
   0, 0, 0, 0, 0, 0, 0, 0, 0, 0, 0, 0, 0, 0, 0, 0⟩

/-- Opcode `OP_ALU = 0b0110011` from `src/chips/cpu/trace.rs` (`mod opcodes`). -/
def op_alu : Nat := 51

/-- Opcode `OP_ALU_IMM = 0b0010011`. -/
def op_alu_imm : Nat := 19

/-- Opcode `OP_LOAD = 0b0000011`. -/
def op_load : Nat := 3

/-- Opcode `OP_JALR = 0b1100111`. -/
def op_jalr : Nat := 103

/-- Opcode `OP_STORE = 0b0100011`. -/
def op_store : Nat := 35

/-- Opcode `OP_BRANCH = 0b1100011`. -/
def op_branch : Nat := 99

/-- Opcode `OP_LUI = 0b0110111`. -/
def op_lui : Nat := 55

/-- Opcode `OP_AUIPC = 0b0010111`. -/
def op_auipc : Nat := 23

/-- Opcode `OP_JAL = 0b1101111`. -/
def op_jal : Nat := 111

/-- Opcode `OP_SYSTEM = 0b1110011`. -/
def op_system : Nat := 115

/-- Opcode `OP_ZK_CUSTOM = 0b0001011`. -/
def op_zk_custom : Nat := 11

/-- Opcode `OP_ZK_IO = 0b0101011`. -/
def op_zk_io : Nat := 43

/-- Opcode `OP_HALT = 0b1111111`. -/
def op_halt : Nat := 127

/-- First phase of `populate_row_from_step` from `src/chips/cpu/trace.rs`:
the state, decode and operand-value columns written directly from the step.
The row starts from the all-zero allocation; `reset_flags` is subsumed by
that. -/
def cpu_base_row (step : Step) : CpuColumns :=
  { cpuZeroRow with
    pc := (step.pc : F)
    cycle := (step.cycle : F)
    opcode := (step.opcode : F)
    rd := (step.rd : F)
    rs1 := (step.rs1 : F)
    rs2 := (step.rs2 : F)
    imm := (u32_of_i32 step.imm : F)
    funct := (step.funct : F)
    rs1_val := (step.registers step.rs1 : F)
    rs2_val := (step.registers step.rs2 : F)
    rd_val := (step.registers step.rd : F) }

/-- Second phase of `populate_row_from_step`: the opcode match setting exactly
one opcode-class flag, translated as an if-chain in source order;
`OP_JAL | OP_JALR` and `OP_LUI | OP_AUIPC` are the two multi-pattern arms, the
`OP_HALT` arm also sets `is_halted`, and the wildcard arm sets `is_nop`. -/
def cpu_flagged_row (step : Step) : CpuColumns :=
  if step.opcode = op_alu then { cpu_base_row step with is_alu := 1 }
  else if step.opcode = op_alu_imm then { cpu_base_row step with is_alu_imm := 1 }
  else if step.opcode = op_branch then { cpu_base_row step with is_branch := 1 }
  else if step.opcode = op_jal ∨ step.opcode = op_jalr then
    { cpu_base_row step with is_jump := 1 }
  else if step.opcode = op_load then { cpu_base_row step with is_load := 1 }
  else if step.opcode = op_store then { cpu_base_row step with is_store := 1 }
  else if step.opcode = op_lui ∨ step.opcode = op_auipc then
    { cpu_base_row step with is_lui_auipc := 1 }
  else if step.opcode = op_system then { cpu_base_row step with is_system := 1 }
  else if step.opcode = op_zk_custom then { cpu_base_row step with is_zk_custom := 1 }
  else if step.opcode = op_zk_io then { cpu_base_row step with is_zk_io := 1 }
  else if step.opcode = op_halt then
    { cpu_base_row step with is_halt := 1, is_halted := 1 }
  else { cpu_base_row step with is_nop := 1 }

/-- Third phase of `populate_row_from_step`: `next_pc` is the source's
placeholder `step.pc.wrapping_add(4)`, `alu_op` a zero placeholder, and
`alu_result` copies `rd_val`. -/
def cpu_computed_row (step : Step) : CpuColumns :=
  { cpu_flagged_row step with
    next_pc := (((step.pc + 4) % 4294967296 : Nat) : F)
    alu_op := 0
    alu_result := (cpu_flagged_row step).rd_val }

/-- `populate_row_from_step` from `src/chips/cpu/trace.rs`, assembled from the
three phases above: on the last step or a HALT opcode the row is forced to
`is_halted = 1` and `next_pc = pc`. -/
def populate_row_from_step (step : Step) (is_last : Bool) : CpuColumns :=
  if is_last || decide (step.opcode = op_halt) then
    { cpu_computed_row step with
      is_halted := 1, next_pc := (cpu_computed_row step).pc }
  else cpu_computed_row step

/-- `populate_nop_row` from `src/chips/cpu/trace.rs`: a padding row carries
only `cycle` (set to the padding row's index) and `is_nop = 1`. -/
def populate_nop_row (cycle : Nat) : CpuColumns :=
  { cpuZeroRow with cycle := (cycle : F), is_nop := 1 }

/-- `generate_cpu_trace` from `src/chips/cpu/trace.rs`: one row per step
(the last step is flagged `is_last`), then NOP padding rows indexed
`num_steps..trace_len`, with `trace_len = num_steps.next_power_of_two().max(2)`. -/
def generate_cpu_trace (t : ExecutionTrace) : List CpuColumns :=
  let num_steps := t.steps.length
  let trace_len := max (nextPowerOfTwo num_steps) 2
  (t.steps.enum.map fun p => populate_row_from_step p.2 (p.1 == num_steps - 1)) ++
    (List.range (trace_len - num_steps)).map fun j => populate_nop_row (num_steps + j)

/-- Sum of the twelve opcode-class one-hot flags of a CPU row (the flag sum
that `CpuChip::eval` asserts equals one, same order as
`CpuColumns::opcode_flags`). -/
def flag_sum (c : CpuColumns) : F :=
  c.is_alu + c.is_alu_imm + c.is_branch + c.is_jump + c.is_load + c.is_store +
    c.is_lui_auipc + c.is_system + c.is_zk_custom + c.is_zk_io + c.is_halt + c.is_nop

/-- The opcode-class flag column that `populate_row_from_step`'s opcode match
selects for a given opcode (`is_nop` for an unrecognized opcode). -/
def opcode_flag (op : Nat) (c : CpuColumns) : F :=
  if op = op_alu then c.is_alu
  else if op = op_alu_imm then c.is_alu_imm
  else if op = op_branch then c.is_branch
  else if op = op_jal ∨ op = op_jalr then c.is_jump
  else if op = op_load then c.is_load
  else if op = op_store then c.is_store
  else if op = op_lui ∨ op = op_auipc then c.is_lui_auipc
  else if op = op_system then c.is_system
  else if op = op_zk_custom then c.is_zk_custom
  else if op = op_zk_io then c.is_zk_io
  else if op = op_halt then c.is_halt
  else c.is_nop

/-- Memory trace columns (`MemoryColumns<T>` in `src/chips/memory/mod.rs`,
7 columns), instantiated at the Baby Bear field. -/
structure MemoryColumns where
  address : F
  cycle : F
  value : F
  is_write : F
  same_addr_as_next : F
  addr_diff_inv : F
  cycle_diff_inv : F
deriving DecidableEq

/-- An all-zero memory row (the allocation value of the witness vector). -/
def memZeroRow : MemoryColumns := ⟨0, 0, 0, 0, 0, 0, 0⟩

/-- One populated row of the memory trace (loop body of
`MemoryChip::generate_trace`): address/cycle/value/is_write come from the
sorted access record; `same_addr_as_next` is set by peeking at the next sorted
record; `addr_diff_inv` and `cycle_diff_inv` are never written by the source
and keep their allocation value zero. -/
def mem_populate_row (sorted : List MemoryAccess) (i : Nat) (a : MemoryAccess) :
    MemoryColumns :=
  { address := (a.address : F)
    cycle := (a.cycle : F)
    value := (a.value : F)
    is_write := if a.is_write then 1 else 0
    same_addr_as_next :=
      match sorted.get? (i + 1) with
      | some nxt => if nxt.address = a.address then 1 else 0
      | none => 0
    addr_diff_inv := 0
    cycle_diff_inv := 0 }

/-- `MemoryChip::generate_trace` from `src/chips/memory/mod.rs`: rows from the
sorted memory log, zero-padded to `num_accesses.next_power_of_two().max(2)`. -/
def MemoryChip.generate_trace (t : ExecutionTrace) : List MemoryColumns :=
  let sorted := t.sorted_memory_log
  let num_accesses := sorted.length
  let trace_len := max (nextPowerOfTwo num_accesses) 2
  (sorted.enum.map fun p => mem_populate_row sorted p.1 p.2) ++
    List.replicate (trace_len - num_accesses) memZeroRow

/-- Per-row constraints of `MemoryChip::eval`: `is_write` and
`same_addr_as_next` are boolean (`v * (1 - v) = 0`). -/
def mem_row_constraints_ok (r : MemoryColumns) : Bool :=
  decide (r.is_write * (1 - r.is_write) = 0) &&
  decide (r.same_addr_as_next * (1 - r.same_addr_as_next) = 0)

/-- Transition constraints of `MemoryChip::eval` on a (local, next) row pair.
A `when(sel)`-scoped assertion of `expr = 0` is the polynomial identity
`sel * expr = 0`:
same-address rows must repeat the address; same-address rows must satisfy
`(next.cycle - local.cycle - 1) * cycle_diff_inv = 1`; a same-address read must
repeat the previous value. -/
def mem_transition_constraints_ok (loc nxt : MemoryColumns) : Bool :=
  decide (loc.same_addr_as_next * (nxt.address - loc.address) = 0) &&
  decide (loc.same_addr_as_next *
    ((nxt.cycle - loc.cycle - 1) * loc.cycle_diff_inv - 1) = 0) &&
  decide (loc.same_addr_as_next * (1 - nxt.is_write) * (nxt.value - loc.value) = 0)

/-- All constraints emitted by `MemoryChip::eval` over a full trace: per-row
boolean constraints on every row, transition constraints on every adjacent row
pair (`when_transition`). -/
def mem_constraints_ok (rows : List MemoryColumns) : Bool :=
  rows.all mem_row_constraints_ok &&
  (rows.zip rows.tail).all fun p => mem_transition_constraints_ok p.1 p.2

/-- The cycle-ordering constraint body from `MemoryChip::eval` (line 96-102):
`(next.cycle - local.cycle - 1) * cycle_diff_inv = 1` for a given claimed
inverse. -/
def cycle_diff_constraint (local_cycle next_cycle inv : F) : Prop :=
  (next_cycle - local_cycle - 1) * inv = 1

/-- Poseidon2 state width (`POSEIDON2_WIDTH = 16`). -/
def POSEIDON2_WIDTH : Nat := 16

/-- Number of Poseidon2 full rounds (`POSEIDON2_FULL_ROUNDS = 8`). -/
def POSEIDON2_FULL_ROUNDS : Nat := 8

/-- Number of Poseidon2 partial rounds (`POSEIDON2_PARTIAL_ROUNDS = 14`). -/
def POSEIDON2_PARTIAL_ROUNDS : Nat := 14

/-- Poseidon2 trace columns (`Poseidon2Columns<T>` in
`src/chips/syscall/poseidon.rs`: cycle, round, full-round flag, 16 state and
16 post-S-box state elements). -/
structure Poseidon2Columns where
  cycle : F
  round : F
  is_full_round : F
  state : Fin 16 → F
  state_after_sbox : Fin 16 → F

/-- An all-zero Poseidon2 row (the allocation value of the witness vector). -/
def poseidon2ZeroRow : Poseidon2Columns :=
  { cycle := 0, round := 0, is_full_round := 0
    state := fun _ => 0, state_after_sbox := fun _ => 0 }

/-- `Poseidon2Chip::generate_trace` from `src/chips/syscall/poseidon.rs`:
filters the syscall records by the Poseidon2 code, sizes the matrix at
`(calls * 22).next_power_of_two().max(2)` rows, allocates it as all zeros and
never populates it (the population is a `TODO` in the source). -/
def Poseidon2Chip.generate_trace (syscalls : List SyscallRecord) : List Poseidon2Columns :=
  let poseidon_calls := syscalls.filter fun s => s.code == syscall_code_poseidon2
  let num_rounds := POSEIDON2_FULL_ROUNDS + POSEIDON2_PARTIAL_ROUNDS
  let rows_per_call := num_rounds
  let total_rows := poseidon_calls.length * rows_per_call
  let trace_len := max (nextPowerOfTwo total_rows) 2
  List.replicate trace_len poseidon2ZeroRow

/-- SHA256 rounds per block (`SHA256_ROUNDS = 64`). -/
def SHA256_ROUNDS : Nat := 64

/-- SHA256 trace columns (`Sha256Columns<T>` in `src/chips/syscall/sha256.rs`,
20 columns). -/
structure Sha256Columns where
  cycle : F
  block_idx : F
  round : F
  a : F
  b : F
  c : F
  d : F
  e : F
  f : F
  g : F
  h : F
  w : F
  k : F
  ch : F
  maj : F
  sigma0 : F
  sigma1 : F
  temp1 : F
  temp2 : F
deriving DecidableEq

/-- An all-zero SHA256 row (the allocation value of the witness vector). -/
def sha256ZeroRow : Sha256Columns :=
  ⟨0, 0, 0, 0, 0, 0, 0, 0, 0, 0, 0, 0, 0, 0, 0, 0, 0, 0, 0⟩

/-- `Sha256Chip::generate_trace` from `src/chips/syscall/sha256.rs`: filters
the syscall records by the SHA256 code, sizes the matrix at
`(calls * 64).next_power_of_two().max(2)` rows, allocates it as all zeros and
never populates it (the population is a `TODO` in the source). -/
def Sha256Chip.generate_trace (syscalls : List SyscallRecord) : List Sha256Columns :=
  let sha_calls := syscalls.filter fun s => s.code == syscall_code_sha256
  let rows_per_block := SHA256_ROUNDS
  let total_rows := sha_calls.length * rows_per_block
  let trace_len := max (nextPowerOfTwo total_rows) 2
  List.replicate trace_len sha256ZeroRow

/-- A zeroed register file for concrete example traces. -/
def exRegisters : Nat → Nat := fun _ => 0

/-- A minimal ALU step at a given pc and cycle, for concrete example traces. -/
def aluStep (pc cycle : Nat) : Step :=
  { pc := pc, cycle := cycle, opcode := op_alu, rd := 0, rs1 := 0, rs2 := 0,
    imm := 0, funct := 0, registers := exRegisters }

/-- Concrete trace with a single ALU step (cycle 0). -/
def exTraceOneStep : ExecutionTrace := ⟨[], [], [], [aluStep 0 0], [], []⟩

/-- Concrete trace with two ALU steps whose program counters are not
sequential (pc 0 then pc 100). -/
def exTraceJumpPc : ExecutionTrace :=
  ⟨[], [], [], [aluStep 0 0, aluStep 100 1], [], []⟩

/-- Concrete trace with a single ALU step whose cycle counter is 5 (not equal
to its row index). -/
def exTraceCycleFive : ExecutionTrace := ⟨[], [], [], [aluStep 0 5], [], []⟩

/-- Concrete trace whose memory log has two accesses to the same address
(a write at cycle 1, then a read at cycle 3). -/
def exTraceMem : ExecutionTrace :=
  ⟨[], [], [], [], [⟨4, 1, 9, true⟩, ⟨4, 3, 9, false⟩], []⟩

theorem powMod_eq (fuel : Nat) :
    ∀ a e m : Nat, e < 2 ^ fuel → powMod fuel a e m = a ^ e % m := by
  induction fuel with
  | zero =>
    intro a e m he
    have : e = 0 := by omega
    subst this
    simp [powMod]
  | succ fuel ih =>
    intro a e m he
    by_cases h0 : e = 0
    · subst h0; simp [powMod]
    · rw [pow_succ] at he
      have he2 : e / 2 < 2 ^ fuel := by omega
      have hrec := ih (a * a % m) (e / 2) m he2
      have hsplit : a ^ e = (a * a) ^ (e / 2) * a ^ (e % 2) := by
        rw [← pow_two, ← pow_mul, ← pow_add]
        congr 1
        omega
      have hp : (a * a % m) ^ (e / 2) % m = (a * a) ^ (e / 2) % m := by
        rw [← Nat.pow_mod]
      show (if e = 0 then 1 % m else
        if e % 2 = 1 then a % m * powMod fuel (a * a % m) (e / 2) m % m
        else powMod fuel (a * a % m) (e / 2) m) = a ^ e % m
      rw [if_neg h0, hrec, hp]
      by_cases h1 : e % 2 = 1
      · rw [if_pos h1, hsplit, h1, pow_one,
          Nat.mul_mod ((a * a) ^ (e / 2)) a m, Nat.mul_comm (a % m)]
      · rw [if_neg h1]
        have h2 : e % 2 = 0 := by omega
        rw [hsplit, h2, pow_zero, mul_one]

theorem bb_pow_check : powMod 31 31 2013265920 2013265921 = 1 := by decide

/-- The Baby Bear modulus is prime, via the Lucas primality certificate with
witness 31 and the prime factors 2, 3, 5 of `p - 1 = 2^27 * 3 * 5`. -/
theorem babyBear_prime : Nat.Prime 2013265921 := by
  have cast_pow_eq : ∀ e : Nat, e < 2 ^ 31 →
      (31 : ZMod 2013265921) ^ e = ((powMod 31 31 e 2013265921 : Nat) : ZMod 2013265921) := by
    intro e he
    rw [powMod_eq 31 31 e 2013265921 he]
    rw [ZMod.natCast_mod, Nat.cast_pow]
    norm_num
  apply lucas_primality 2013265921 (31 : ZMod 2013265921)
  · show (31 : ZMod 2013265921) ^ 2013265920 = 1
    rw [cast_pow_eq 2013265920 (by norm_num), bb_pow_check]
    norm_num
  · intro q hq hdvd
    have hq235 : q = 2 ∨ q = 3 ∨ q = 5 := by
      norm_num at hdvd
      have h15 : (2013265920 : Nat) = 2 ^ 27 * 15 := by norm_num
      rw [h15] at hdvd
      rcases (Nat.Prime.dvd_mul hq).mp hdvd with h | h
      · have h2 : q ∣ 2 := hq.dvd_of_dvd_pow h
        have := Nat.le_of_dvd (by norm_num) h2
        have := hq.two_le
        left; omega
      · have hle : q ≤ 15 := Nat.le_of_dvd (by norm_num) h
        have hge : 2 ≤ q := hq.two_le
        interval_cases q <;> revert h hq <;> decide
    rcases hq235 with h | h | h <;> subst h
    · show (31 : ZMod 2013265921) ^ (2013265920 / 2) ≠ 1
      rw [show (2013265920 / 2 : Nat) = 1006632960 by norm_num]
      rw [cast_pow_eq 1006632960 (by norm_num)]
      decide
    · show (31 : ZMod 2013265921) ^ (2013265920 / 3) ≠ 1
      rw [show (2013265920 / 3 : Nat) = 671088640 by norm_num]
      rw [cast_pow_eq 671088640 (by norm_num)]
      decide
    · show (31 : ZMod 2013265921) ^ (2013265920 / 5) ≠ 1
      rw [show (2013265920 / 5 : Nat) = 402653184 by norm_num]
      rw [cast_pow_eq 402653184 (by norm_num)]
      decide

theorem le_nextPowerOfTwoAux (n : Nat) :
    ∀ fuel power : Nat, n ≤ power * 2 ^ fuel → n ≤ nextPowerOfTwoAux n power fuel := by
  intro fuel
  induction fuel with
  | zero => intro power h; simpa [nextPowerOfTwoAux] using h
  | succ fuel ih =>
    intro power h
    show n ≤ if power < n then nextPowerOfTwoAux n (power * 2) fuel else power
    by_cases hp : power < n
    · rw [if_pos hp]
      apply ih
      rw [pow_succ] at h
      calc n ≤ power * (2 ^ fuel * 2) := h
        _ = power * 2 * 2 ^ fuel := by ring
    · rw [if_neg hp]; omega

/-- The padded length is at least the unpadded length. -/
theorem le_nextPowerOfTwo (n : Nat) : n ≤ nextPowerOfTwo n :=
  le_nextPowerOfTwoAux n n 1 (by simpa using (Nat.lt_two_pow n).le)

theorem generate_cpu_trace_length (t : ExecutionTrace) :
    (generate_cpu_trace t).length = max (nextPowerOfTwo t.steps.length) 2 := by
  have h1 : t.steps.length ≤ nextPowerOfTwo t.steps.length := le_nextPowerOfTwo _
  have h2 : nextPowerOfTwo t.steps.length ≤ max (nextPowerOfTwo t.steps.length) 2 :=
    Nat.le_max_left _ _
  simp only [generate_cpu_trace, List.length_append, List.length_map,
    List.enum_length, List.length_range]
  omega

theorem generate_cpu_trace_getElem_lt (t : ExecutionTrace) (i : Nat)
    (hn : i < t.steps.length) (h : i < (generate_cpu_trace t).length) :
    (generate_cpu_trace t)[i] =
      populate_row_from_step t.steps[i] (i == t.steps.length - 1) := by
  simp only [generate_cpu_trace]
  rw [List.getElem_append_left (by simpa [List.enum_length] using hn)]
  simp [List.getElem_enum]

theorem generate_cpu_trace_getElem_ge (t : ExecutionTrace) (i : Nat)
    (hn : t.steps.length ≤ i) (h : i < (generate_cpu_trace t).length) :
    (generate_cpu_trace t)[i] = populate_nop_row i := by
  have hlen : i < t.steps.length + (max (nextPowerOfTwo t.steps.length) 2 - t.steps.length) := by
    have := generate_cpu_trace_length t
    have h1 : t.steps.length ≤ nextPowerOfTwo t.steps.length := le_nextPowerOfTwo _
    omega
  simp only [generate_cpu_trace]
  rw [List.getElem_append_right (by simpa [List.enum_length] using hn)]
  simp only [List.length_map, List.enum_length, List.getElem_map, List.getElem_range]
  congr 1
  omega

theorem cpu_flagged_row_cycle (s : Step) :
    (cpu_flagged_row s).cycle = (s.cycle : F) := by
  simp only [cpu_flagged_row]
  generalize hb : cpu_base_row s = r
  have hc : r.cycle = (s.cycle : F) := by rw [← hb]; rfl
  simp only [apply_ite CpuColumns.cycle]
  simp [hc]

theorem populate_row_from_step_cycle (s : Step) (b : Bool) :
    (populate_row_from_step s b).cycle = (s.cycle : F) := by
  simp only [populate_row_from_step]
  by_cases hcond : (b || decide (s.opcode = op_halt)) = true
  · rw [if_pos hcond]
    exact cpu_flagged_row_cycle s
  · rw [if_neg hcond]
    exact cpu_flagged_row_cycle s

theorem populate_nop_row_cycle (c : Nat) :
    (populate_nop_row c).cycle = (c : F) := rfl

theorem populate_nop_row_is_nop (c : Nat) :
    (populate_nop_row c).is_nop = 1 := rfl

theorem populate_nop_row_flag_sum (c : Nat) :
    flag_sum (populate_nop_row c) = 1 := by
  simp [flag_sum, populate_nop_row, cpuZeroRow]

theorem cpu_flagged_row_flag_sum (s : Step) :
    flag_sum (cpu_flagged_row s) = 1 := by
  simp only [cpu_flagged_row]
  generalize hb : cpu_base_row s = r
  have h1 : r.is_alu = 0 := by rw [← hb]; rfl
  have h2 : r.is_alu_imm = 0 := by rw [← hb]; rfl
  have h3 : r.is_branch = 0 := by rw [← hb]; rfl
  have h4 : r.is_jump = 0 := by rw [← hb]; rfl
  have h5 : r.is_load = 0 := by rw [← hb]; rfl
  have h6 : r.is_store = 0 := by rw [← hb]; rfl
  have h7 : r.is_lui_auipc = 0 := by rw [← hb]; rfl
  have h8 : r.is_system = 0 := by rw [← hb]; rfl
  have h9 : r.is_zk_custom = 0 := by rw [← hb]; rfl
  have h10 : r.is_zk_io = 0 := by rw [← hb]; rfl
  have h11 : r.is_halt = 0 := by rw [← hb]; rfl
  have h12 : r.is_nop = 0 := by rw [← hb]; rfl
  simp only [apply_ite flag_sum]
  simp [flag_sum, h1, h2, h3, h4, h5, h6, h7, h8, h9, h10, h11, h12]

theorem populate_row_from_step_flag_sum (s : Step) (b : Bool) :
    flag_sum (populate_row_from_step s b) = 1 := by
  simp only [populate_row_from_step]
  by_cases hcond : (b || decide (s.opcode = op_halt)) = true
  · rw [if_pos hcond]
    exact cpu_flagged_row_flag_sum s
  · rw [if_neg hcond]
    exact cpu_flagged_row_flag_sum s

theorem cpu_flagged_row_opcode_flag (s : Step) :
    opcode_flag s.opcode (cpu_flagged_row s) = 1 := by
  simp only [cpu_flagged_row, opcode_flag]
  generalize hb : cpu_base_row s = r
  by_cases h1 : s.opcode = op_alu
  · rw [if_pos h1, if_pos h1]
  rw [if_neg h1, if_neg h1]
  by_cases h2 : s.opcode = op_alu_imm
  · rw [if_pos h2, if_pos h2]
  rw [if_neg h2, if_neg h2]
  by_cases h3 : s.opcode = op_branch
  · rw [if_pos h3, if_pos h3]
  rw [if_neg h3, if_neg h3]
  by_cases h4 : s.opcode = op_jal ∨ s.opcode = op_jalr
  · rw [if_pos h4, if_pos h4]
  rw [if_neg h4, if_neg h4]
  by_cases h5 : s.opcode = op_load
  · rw [if_pos h5, if_pos h5]
  rw [if_neg h5, if_neg h5]
  by_cases h6 : s.opcode = op_store
  · rw [if_pos h6, if_pos h6]
  rw [if_neg h6, if_neg h6]
  by_cases h7 : s.opcode = op_lui ∨ s.opcode = op_auipc
  · rw [if_pos h7, if_pos h7]
  rw [if_neg h7, if_neg h7]
  by_cases h8 : s.opcode = op_system
  · rw [if_pos h8, if_pos h8]
  rw [if_neg h8, if_neg h8]
  by_cases h9 : s.opcode = op_zk_custom
  · rw [if_pos h9, if_pos h9]
  rw [if_neg h9, if_neg h9]
  by_cases h10 : s.opcode = op_zk_io
  · rw [if_pos h10, if_pos h10]
  rw [if_neg h10, if_neg h10]
  by_cases h11 : s.opcode = op_halt
  · rw [if_pos h11, if_pos h11]
  rw [if_neg h11, if_neg h11]

theorem populate_row_from_step_opcode_flag (s : Step) (b : Bool) :
    opcode_flag s.opcode (populate_row_from_step s b) = 1 := by
  simp only [populate_row_from_step]
  by_cases hcond : (b || decide (s.opcode = op_halt)) = true
  · rw [if_pos hcond]
    exact cpu_flagged_row_opcode_flag s
  · rw [if_neg hcond]
    exact cpu_flagged_row_opcode_flag s

theorem mem_generate_trace_length (t : ExecutionTrace) :
    (MemoryChip.generate_trace t).length = max (nextPowerOfTwo t.memory_log.length) 2 := by
  have hperm : t.sorted_memory_log.length = t.memory_log.length :=
    (List.perm_insertionSort mem_le t.memory_log).length_eq
  have h1 : t.sorted_memory_log.length ≤ nextPowerOfTwo t.sorted_memory_log.length :=
    le_nextPowerOfTwo _
  simp only [MemoryChip.generate_trace, List.length_append, List.length_map,
    List.enum_length, List.length_replicate]
  rw [hperm] at h1 ⊢
  omega

/-- C10: `ExecutionTrace::num_cycles` returns the cycle of the last step, and
0 when `steps` is empty — it is the final cycle value, not a count of steps. -/
theorem num_cycles_spec (t : ExecutionTrace) :
    (∀ s : Step, t.steps.getLast? = some s → t.num_cycles = s.cycle) ∧
    (t.steps = [] → t.num_cycles = 0) := by
  constructor
  · intro s hs
    simp [ExecutionTrace.num_cycles, hs]
  · intro hs
    simp [ExecutionTrace.num_cycles, hs]

/-- C10 witness: on a concrete one-step trace whose step has cycle 5,
`num_cycles` returns 5 (and not the step count 1). -/
theorem num_cycles_spec_witness : exTraceCycleFive.num_cycles = 5 :=
  (num_cycles_spec exTraceCycleFive).1 (aluStep 0 5) rfl

/-- C7: `sorted_memory_log` is non-decreasing in the lexicographic
(address, cycle) order, and is a permutation of the input memory log. -/
theorem sorted_memory_log_spec (t : ExecutionTrace) :
    List.Sorted mem_le t.sorted_memory_log ∧
      t.sorted_memory_log.Perm t.memory_log :=
  ⟨List.sorted_insertionSort mem_le t.memory_log,
   List.perm_insertionSort mem_le t.memory_log⟩

/-- C8: every generated witness matrix has height
`max(2, next_power_of_two(n))`, where `n` counts steps for the CPU chip,
memory-log records for the memory chip, and 22 rows per filtered call for the
Poseidon2 chip — including `n = 0` and `n = 1`, where the height is 2. -/
theorem witness_matrix_heights (t : ExecutionTrace) (records : List SyscallRecord) :
    (generate_cpu_trace t).length = max 2 (nextPowerOfTwo t.steps.length) ∧
    (MemoryChip.generate_trace t).length = max 2 (nextPowerOfTwo t.memory_log.length) ∧
    (Poseidon2Chip.generate_trace records).length =
      max 2 (nextPowerOfTwo
        ((records.filter fun s => s.code == syscall_code_poseidon2).length * 22)) := by
  refine ⟨?_, ?_, ?_⟩
  · rw [generate_cpu_trace_length, Nat.max_comm]
  · rw [mem_generate_trace_length, Nat.max_comm]
  · simp only [Poseidon2Chip.generate_trace, List.length_replicate]
    rw [Nat.max_comm]
    norm_num [POSEIDON2_FULL_ROUNDS, POSEIDON2_PARTIAL_ROUNDS]

/-- C9: the Poseidon2 and SHA256 trace generators return all-zero matrices:
no cycle, round, state or working-variable column is ever populated from the
records. -/
theorem syscall_traces_all_zero (records : List SyscallRecord) :
    (∀ r ∈ Poseidon2Chip.generate_trace records,
      r.cycle = 0 ∧ r.round = 0 ∧ r.is_full_round = 0 ∧
        (∀ j, r.state j = 0) ∧ (∀ j, r.state_after_sbox j = 0)) ∧
    (∀ r ∈ Sha256Chip.generate_trace records, r = sha256ZeroRow) := by
  constructor
  · intro r hr
    simp only [Poseidon2Chip.generate_trace] at hr
    have h := List.eq_of_mem_replicate hr
    subst h
    refine ⟨rfl, rfl, rfl, fun j => rfl, fun j => rfl⟩
  · intro r hr
    simp only [Sha256Chip.generate_trace] at hr
    exact List.eq_of_mem_replicate hr

/-- C9 witness: concrete instantiation on a record list containing one
Poseidon2 call: the first rows of both generated matrices are all-zero. -/
theorem syscall_traces_all_zero_witness :
    poseidon2ZeroRow.cycle = 0 ∧ poseidon2ZeroRow.state 0 = 0 ∧
      sha256ZeroRow = sha256ZeroRow := by
  have hp : poseidon2ZeroRow ∈ Poseidon2Chip.generate_trace [⟨1, 0, [], []⟩] := by
    rw [show Poseidon2Chip.generate_trace [⟨1, 0, [], []⟩] =
      List.replicate 32 poseidon2ZeroRow from rfl]
    exact List.mem_replicate.mpr ⟨by norm_num, rfl⟩
  have hs : sha256ZeroRow ∈ Sha256Chip.generate_trace [⟨1, 0, [], []⟩] := by
    rw [show Sha256Chip.generate_trace [⟨1, 0, [], []⟩] =
      List.replicate 2 sha256ZeroRow from rfl]
    exact List.mem_replicate.mpr ⟨by norm_num, rfl⟩
  obtain ⟨h1, _, _, h4, _⟩ := (syscall_traces_all_zero [⟨1, 0, [], []⟩]).1 _ hp
  exact ⟨h1, h4 0, (syscall_traces_all_zero [⟨1, 0, [], []⟩]).2 _ hs ▸ rfl⟩

/-- C6: in every generated CPU matrix, each row has opcode-class flag sum
exactly 1, each step row's active flag matches its step's opcode (with
`is_nop` for an unrecognized opcode), and every padding row has `is_nop = 1`. -/
theorem cpu_opcode_exclusivity (t : ExecutionTrace) :
    (∀ r ∈ generate_cpu_trace t, flag_sum r = 1) ∧
    (∀ i (hi : i < t.steps.length) (hr : i < (generate_cpu_trace t).length),
      opcode_flag (t.steps[i]).opcode ((generate_cpu_trace t)[i]) = 1) ∧
    (∀ i (hr : i < (generate_cpu_trace t).length), t.steps.length ≤ i →
      ((generate_cpu_trace t)[i]).is_nop = 1) := by
  refine ⟨?_, ?_, ?_⟩
  · intro r hr
    obtain ⟨i, hi, rfl⟩ := List.getElem_of_mem hr
    by_cases hlt : i < t.steps.length
    · rw [generate_cpu_trace_getElem_lt t i hlt hi]
      exact populate_row_from_step_flag_sum _ _
    · rw [generate_cpu_trace_getElem_ge t i (by omega) hi]
      exact populate_nop_row_flag_sum i
  · intro i hi hr
    rw [generate_cpu_trace_getElem_lt t i hi hr]
    exact populate_row_from_step_opcode_flag _ _
  · intro i hr hge
    rw [generate_cpu_trace_getElem_ge t i hge hr]
    exact populate_nop_row_is_nop i

/-- C6 witness: concrete instantiation on the one-step trace: the step row's
flag matches `OP_ALU`, and the padding row is a NOP with flag sum 1. -/
theorem cpu_opcode_exclusivity_witness :
    flag_sum ((generate_cpu_trace exTraceOneStep).get ⟨1, by decide⟩) = 1 ∧
    opcode_flag (exTraceOneStep.steps.get ⟨0, by decide⟩).opcode
      ((generate_cpu_trace exTraceOneStep).get ⟨0, by decide⟩) = 1 ∧
    ((generate_cpu_trace exTraceOneStep).get ⟨1, by decide⟩).is_nop = 1 := by
  refine ⟨(cpu_opcode_exclusivity exTraceOneStep).1 _ (by decide),
    (cpu_opcode_exclusivity exTraceOneStep).2.1 0 (by decide) (by decide),
    (cpu_opcode_exclusivity exTraceOneStep).2.2 1 (by decide) (by decide)⟩

theorem generate_cpu_trace_cycle (t : ExecutionTrace)
    (hc : ∀ i (hi : i < t.steps.length), (t.steps[i]).cycle = i)
    (i : Nat) (h : i < (generate_cpu_trace t).length) :
    ((generate_cpu_trace t)[i]).cycle = (i : F) := by
  by_cases hlt : i < t.steps.length
  · rw [generate_cpu_trace_getElem_lt t i hlt h, populate_row_from_step_cycle,
      hc i hlt]
  · rw [generate_cpu_trace_getElem_ge t i (by omega) h, populate_nop_row_cycle]

/-- C5 (amended): in a CPU matrix generated from a trace whose step cycles are
consecutive from 0 (`steps[i].cycle = i`, the interpreter's cycle-counter
convention), every adjacent row pair whose first row is not a NOP has
`next.cycle = local.cycle + 1`.  Unamended the claim is false: step rows carry
the step's own cycle value while padding rows carry their row index, so a
trace whose cycles do not equal the row indices breaks the increment at the
step-to-padding boundary (see the counterexample). -/
theorem cpu_cycle_increment (t : ExecutionTrace)
    (hc : ∀ i (hi : i < t.steps.length), (t.steps[i]).cycle = i) :
    ∀ i (h1 : i + 1 < (generate_cpu_trace t).length)
      (h0 : i < (generate_cpu_trace t).length),
      ((generate_cpu_trace t)[i]).is_nop = 0 →
      ((generate_cpu_trace t)[i + 1]).cycle = ((generate_cpu_trace t)[i]).cycle + 1 := by
  intro i h1 h0 _
  rw [generate_cpu_trace_cycle t hc (i + 1) h1, generate_cpu_trace_cycle t hc i h0]
  push_cast
  ring

/-- C5 witness: on the concrete one-step trace with cycle 0, the padding row's
cycle is the step row's cycle plus 1. -/
theorem cpu_cycle_increment_witness :
    ((generate_cpu_trace exTraceOneStep).get ⟨1, by decide⟩).cycle =
      ((generate_cpu_trace exTraceOneStep).get ⟨0, by decide⟩).cycle + 1 := by
  have hc : ∀ i (hi : i < exTraceOneStep.steps.length),
      (exTraceOneStep.steps[i]).cycle = i := by
    intro i hi
    have h1 : i < 1 := by simpa [exTraceOneStep] using hi
    have h0 : i = 0 := by omega
    subst h0
    rfl
  exact cpu_cycle_increment exTraceOneStep hc 0 (by decide) (by decide) (by decide)

/-- C5 counterexample: on the concrete one-step trace whose step has cycle 5,
the step row (not a NOP) is followed by a padding row with cycle 1 ≠ 5 + 1, so
the claim as stated (for every ExecutionTrace) is false. -/
theorem cpu_cycle_increment_cex :
    ((generate_cpu_trace exTraceCycleFive).get ⟨0, by decide⟩).is_nop = 0 ∧
    ((generate_cpu_trace exTraceCycleFive).get ⟨1, by decide⟩).cycle ≠
      ((generate_cpu_trace exTraceCycleFive).get ⟨0, by decide⟩).cycle + 1 := by
  decide

/-- C3: the generated CPU matrix of the concrete one-step trace has
`is_halted = 1` on row 0 (the last step is forced halted) but `is_halted = 0`
on the subsequent padding row 1: `populate_nop_row` never sets `is_halted`, so
halting is not sticky across padding, contradicting both the claim and the
`CpuChip::eval` constraint `when(local.is_halted).assert_one(next.is_halted)`. -/
theorem cpu_halt_not_sticky :
    ((generate_cpu_trace exTraceOneStep).get ⟨0, by decide⟩).is_halted = 1 ∧
    ((generate_cpu_trace exTraceOneStep).get ⟨1, by decide⟩).is_halted = 0 := by
  decide

/-- C4: on the concrete two-step trace with non-sequential program counters
(pc 0 then pc 100), row 0 is neither a halt row (`is_halt = 0`,
`is_halted = 0`) nor a NOP row, yet row 1's `pc` (100) differs from row 0's
`next_pc` (the placeholder 0 + 4): the generator's placeholder next-pc logic
breaks PC chaining. -/
theorem cpu_pc_chain_violation :
    ((generate_cpu_trace exTraceJumpPc).get ⟨0, by decide⟩).is_halt = 0 ∧
    ((generate_cpu_trace exTraceJumpPc).get ⟨0, by decide⟩).is_nop = 0 ∧
    ((generate_cpu_trace exTraceJumpPc).get ⟨0, by decide⟩).is_halted = 0 ∧
    ((generate_cpu_trace exTraceJumpPc).get ⟨1, by decide⟩).pc ≠
      ((generate_cpu_trace exTraceJumpPc).get ⟨0, by decide⟩).next_pc := by
  decide

/-- C1: the memory witness generated from the concrete trace with two
same-address accesses has `same_addr_as_next = 1` and `cycle_diff_inv = 0` on
row 0 (the generator never populates the inverse column), so the
`MemoryChip::eval` constraint set is violated:
`(next.cycle - local.cycle - 1) * cycle_diff_inv - 1 = -1 ≠ 0`. -/
theorem mem_generate_violates_eval :
    ((MemoryChip.generate_trace exTraceMem).get ⟨0, by decide⟩).same_addr_as_next = 1 ∧
    ((MemoryChip.generate_trace exTraceMem).get ⟨0, by decide⟩).cycle_diff_inv = 0 ∧
    mem_constraints_ok (MemoryChip.generate_trace exTraceMem) = false := by
  decide

/-- C2 counterexample: for the embedded cycle values `local = 0` and
`next = 0`, the constraint `(next - local - 1) * inv = 1` is satisfiable (with
`inv = -1`), although `next > local` is false: satisfiability is NOT
equivalent to `next.cycle > local.cycle`. -/
theorem cycle_diff_constraint_cex :
    (∃ inv : F, cycle_diff_constraint ((0 : Nat) : F) ((0 : Nat) : F) inv) ∧
      ¬ ((0 : Nat) > (0 : Nat)) := by
  constructor
  · refine ⟨-1, ?_⟩
    unfold cycle_diff_constraint
    ring
  · omega

/-- C2 (amended): for 64-bit cycle values embedded in the field, the
constraint `(next.cycle - local.cycle - 1) * cycle_diff_inv = 1` is
satisfiable by some `cycle_diff_inv` if and only if `next.cycle` differs from
`local.cycle + 1` as field elements (i.e. `next ≢ local + 1 mod p`) — not if
and only if `next.cycle > local.cycle` as integers: the inverse trick proves
`diff ≠ 1`, not `diff ≥ 1`. -/
theorem cycle_diff_constraint_satisfiable (lc nc : Nat) :
    (∃ inv : F, cycle_diff_constraint (lc : F) (nc : F) inv) ↔
      (nc : F) ≠ (lc : F) + 1 := by
  haveI : Fact (Nat.Prime 2013265921) := ⟨babyBear_prime⟩
  constructor
  · rintro ⟨inv, hinv⟩ heq
    unfold cycle_diff_constraint at hinv
    rw [heq] at hinv
    have hz : ((lc : F) + 1 - (lc : F) - 1) = 0 := by ring
    rw [hz, zero_mul] at hinv
    exact zero_ne_one hinv
  · intro hne
    have hz : (nc : F) - (lc : F) - 1 ≠ 0 := fun h0 => hne (by linear_combination h0)
    exact ⟨((nc : F) - (lc : F) - 1)⁻¹, mul_inv_cancel₀ hz⟩
